import Mathlib

/-!
Verification development for `components/processing/form_parser/src/main.py`:
a shallow embedding of `batch_process_documents` (the part after job
submission) and proofs of the documented properties.

The external collaborators (the wait on the long-running operation, the
batch-process metadata returned by the service, and the storage listing)
are inputs of the model; the program's own control flow — the lenient
wait-error handling, the terminal-state check, the URI parsing and the
walk over result objects — is translated statement by statement from the
source.
-/

namespace FormParser

/-- A JSON payload as stored in an output object. -/
inductive Json where
  | null : Json
  | bool : Bool → Json
  | num : Int → Json
  | str : String → Json
  | arr : List Json → Json
  | obj : List (String × Json) → Json

/-- `blob` as returned by `storage_client.list_blobs`: name, content type and
(already JSON-parsed) byte payload. -/
structure Blob where
  name : String
  content_type : String
  content : Json

/-- `documentai.BatchProcessMetadata.State`. -/
inductive BatchState where
  | STATE_UNSPECIFIED
  | WAITING
  | RUNNING
  | SUCCEEDED
  | FAILED
  | CANCELLING
  | CANCELLED
  deriving DecidableEq

/-- One element of `metadata.individual_process_statuses`. -/
structure IndividualProcessStatus where
  output_gcs_destination : String

/-- `documentai.BatchProcessMetadata`: terminal state, the service-reported
state message, and the per-input-document output locations. -/
structure BatchProcessMetadata where
  state : BatchState
  state_message : String
  individual_process_statuses : List IndividualProcessStatus

/-- Outcome of `operation.result(timeout=timeout)` as the source observes it:
it returns, or raises `RetryError` / `InternalServerError` (both caught and
logged); the carried message is `e.message`. -/
inductive WaitResult where
  | completed
  | retryError (message : String)
  | internalServerError (message : String)
  deriving DecidableEq

/-- The external world a single run interacts with: the wait outcome, the
job metadata read from the operation, and the storage listing
(`list_blobs bucket pfx`). -/
structure Env where
  waitResult : WaitResult
  metadata : BatchProcessMetadata
  list_blobs : String → String → List Blob

/-- The log lines the source emits on the paths the claims are about. -/
inductive LogEvent where
  | waitError (message : String)
  | parseError (destination : String)
  | skipNonJson (name : String) (content_type : String)
  | fetching (name : String)
  deriving DecidableEq

/-- Observable result of a run: the log lines, and either the raised
`ValueError` message or the emitted (blob name, document text) pairs. -/
structure RunResult where
  logs : List LogEvent
  outcome : Except String (List (String × String))

/-- The literal scheme marker `gs://` of the pattern. -/
def gsScheme : List Char := ['g', 's', ':', '/', '/']

/-- Split a character list at its first `/`: the lazy group `(.*?)` of the
pattern `gs://(.*?)/(.*)` takes the characters before the first `/`, the
greedy group `(.*)` the ones after it. `none` when no `/` occurs. -/
def splitFirstSlash : List Char → Option (List Char × List Char)
  | [] => none
  | c :: cs =>
    if c = '/' then some ([], cs)
    else
      match splitFirstSlash cs with
      | some bp => some (c :: bp.1, bp.2)
      | none => none

/-- `re.match(r"gs://(.*?)/(.*)", s)`: anchored at the start of `s`; `.`
matches any character except a newline, so both groups stop at a newline
and a match needs a `/` reachable without crossing one; `re.match` does not
require the match to cover all of `s`. -/
def matchGsUri (s : List Char) : Option (List Char × List Char) :=
  if gsScheme.isPrefixOf s then
    splitFirstSlash ((s.drop 5).takeWhile (fun c => c ≠ '\n'))
  else
    none

/-- String-level wrapper of `matchGsUri`, giving `matches.groups()`. -/
def gsMatch (s : String) : Option (String × String) :=
  (matchGsUri s.data).map (fun bp => (String.mk bp.1, String.mk bp.2))

/-- Field names of the `Document` message known to the decoding schema
(the ones a strict decode would accept). -/
def knownFields : List String :=
  ["uri", "content", "mimeType", "text", "pages", "entities",
   "textStyles", "error", "revisions", "shardInfo", "textChanges"]

/-- The `text` field of a JSON object's field list (empty when absent or
not a string). -/
def getText : List (String × Json) → String
  | [] => ""
  | (k, v) :: rest =>
    if k = "text" then
      match v with
      | Json.str s => s
      | _ => ""
    else getText rest

/-- The structured document a payload decodes to, exposing its text. -/
structure Document where
  text : String
  deriving DecidableEq

/-- The document a payload denotes: its `text` field when it is an object. -/
def mkDocument : Json → Document
  | Json.obj fields => { text := getText fields }
  | _ => { text := "" }

/-- Modelled from the spec: `documentai.Document.from_json(bytes,
ignore_unknown_fields=True)` is vendor-SDK code, not in this repository.
Per the spec it is a lenient/forward-compatible decoder: with
`ignore_unknown_fields` set, unknown fields in the payload must not cause
failure and the decoded document exposes at least its extracted full text;
without it, a field outside the known schema is rejected. -/
def Document.from_json (ignore_unknown_fields : Bool) (payload : Json) :
    Option Document :=
  if ignore_unknown_fields then
    some (mkDocument payload)
  else
    match payload with
    | Json.obj fields =>
      if fields.all (fun p => knownFields.contains p.1) then
        some (mkDocument payload)
      else
        none
    | _ => none

/-- Body of the inner `for blob in output_blobs` loop: skip (with a log
line) unless the content type is exactly `application/json`, otherwise
fetch, decode leniently and print the document text. -/
def processBlob (b : Blob) : List LogEvent × List (String × String) :=
  if b.content_type ≠ "application/json" then
    ([LogEvent.skipNonJson b.name b.content_type], [])
  else
    match Document.from_json true b.content with
    | some doc => ([LogEvent.fetching b.name], [(b.name, doc.text)])
    | none => ([LogEvent.fetching b.name], [])

/-- The inner loop over the listed output objects, in listing order. -/
def processBlobs : List Blob → List LogEvent × List (String × String)
  | [] => ([], [])
  | b :: bs =>
    ((processBlob b).1 ++ (processBlobs bs).1,
     (processBlob b).2 ++ (processBlobs bs).2)

/-- Body of the outer `for process in ...` loop: parse the output GCS
destination; on no match log an error and `continue`, otherwise list the
bucket under the parsed prefix and process every listed object. -/
def walkEntry (listing : String → String → List Blob)
    (st : IndividualProcessStatus) : List LogEvent × List (String × String) :=
  match gsMatch st.output_gcs_destination with
  | none => ([LogEvent.parseError st.output_gcs_destination], [])
  | some bp => processBlobs (listing bp.1 bp.2)

/-- The outer loop over `metadata.individual_process_statuses`, in the
order the job metadata reports them. -/
def walkEntries (listing : String → String → List Blob) :
    List IndividualProcessStatus → List LogEvent × List (String × String)
  | [] => ([], [])
  | st :: rest =>
    ((walkEntry listing st).1 ++ (walkEntries listing rest).1,
     (walkEntry listing st).2 ++ (walkEntries listing rest).2)

/-- The `try/except (RetryError, InternalServerError)` around
`operation.result`: a caught wait error is logged (`logging.error`) and
execution falls through. -/
def waitLogs : WaitResult → List LogEvent
  | WaitResult.completed => []
  | WaitResult.retryError m => [LogEvent.waitError m]
  | WaitResult.internalServerError m => [LogEvent.waitError m]

/-- `batch_process_documents` after job submission: wait (logging a caught
timeout/transient error), read the metadata, raise
`ValueError(f"Batch Process Failed: {metadata.state_message}")` when the
terminal state is not SUCCEEDED, else walk every output entry. -/
def batch_process_documents (env : Env) : RunResult :=
  let wl := waitLogs env.waitResult
  if env.metadata.state ≠ BatchState.SUCCEEDED then
    { logs := wl,
      outcome := Except.error
        ("Batch Process Failed: " ++ env.metadata.state_message) }
  else
    { logs := wl ++ (walkEntries env.list_blobs
        env.metadata.individual_process_statuses).1,
      outcome := Except.ok (walkEntries env.list_blobs
        env.metadata.individual_process_statuses).2 }

/-- Splitting a list whose head part is slash-free recovers that part and
the tail part. -/
theorem splitFirstSlash_append (b p : List Char) (hb : '/' ∉ b) :
    splitFirstSlash (b ++ '/' :: p) = some (b, p) := by
  induction b with
  | nil => simp [splitFirstSlash]
  | cons c cs ih =>
    have hc : ¬ c = '/' := fun h => hb (by simp [h])
    have ih2 := ih (fun h => hb (List.mem_cons_of_mem c h))
    simp [splitFirstSlash, hc, ih2]

/-- A list with no slash does not split. -/
theorem splitFirstSlash_no_slash (l : List Char) (h : '/' ∉ l) :
    splitFirstSlash l = none := by
  induction l with
  | nil => rfl
  | cons c cs ih =>
    have hc : ¬ c = '/' := fun hh => h (by simp [hh])
    simp [splitFirstSlash, hc, ih (fun hh => h (List.mem_cons_of_mem c hh))]

/-- Soundness of the split: the head part is slash-free and the two parts
reassemble to the input around the first slash. -/
theorem splitFirstSlash_sound (l : List Char) :
    ∀ b p, splitFirstSlash l = some (b, p) → '/' ∉ b ∧ l = b ++ '/' :: p := by
  induction l with
  | nil => intro b p h; simp [splitFirstSlash] at h
  | cons c cs ih =>
    intro b p h
    by_cases hc : c = '/'
    · subst hc
      simp [splitFirstSlash] at h
      obtain ⟨hb, hp⟩ := h
      subst hb; subst hp
      exact ⟨by simp, rfl⟩
    · simp only [splitFirstSlash, if_neg hc] at h
      cases hsp : splitFirstSlash cs with
      | none => rw [hsp] at h; simp at h
      | some bp =>
        rw [hsp] at h
        simp at h
        obtain ⟨hb, hp⟩ := h
        obtain ⟨h1, h2⟩ := ih bp.1 bp.2 (by rw [hsp])
        subst hb; subst hp
        constructor
        · intro hm
          rcases List.mem_cons.mp hm with hx | hx
          · exact hc hx.symm
          · exact h1 hx
        · simp [h2]

/-- On a string starting with the scheme marker, the match reduces to
splitting the remainder (cut at the first newline) at its first slash. -/
theorem matchGsUri_scheme_append (rest : List Char) :
    matchGsUri (gsScheme ++ rest) =
      splitFirstSlash (rest.takeWhile (fun c => c ≠ '\n')) := by
  have hp : gsScheme.isPrefixOf (gsScheme ++ rest) := by
    rw [List.isPrefixOf_iff_prefix]
    exact List.prefix_append _ _
  rw [matchGsUri, if_pos hp]
  congr 1

/-- C4: a well-formed `gs://bucket/pfx` string (slash-free bucket, no
newlines) parses to exactly that bucket and that possibly-empty remainder,
split at the first slash after the scheme; a string not starting with the
scheme marker yields no match, and in the walk a no-match entry is logged
as a parse error and skipped while the remaining entries are still
processed. -/
theorem c4_uri_parse_wellformed_malformed (bkt pfx : List Char)
    (hb : '/' ∉ bkt) (hbn : '\n' ∉ bkt) (hpn : '\n' ∉ pfx) :
    matchGsUri (gsScheme ++ bkt ++ '/' :: pfx) = some (bkt, pfx) ∧
    (∀ s : List Char, ¬ gsScheme.isPrefixOf s → matchGsUri s = none) ∧
    (∀ (L : String → String → List Blob) (st : IndividualProcessStatus),
      gsMatch st.output_gcs_destination = none →
        walkEntry L st = ([LogEvent.parseError st.output_gcs_destination], [])) ∧
    (∀ (L : String → String → List Blob) (st : IndividualProcessStatus)
      (rest : List IndividualProcessStatus),
      gsMatch st.output_gcs_destination = none →
        walkEntries L (st :: rest) =
          (LogEvent.parseError st.output_gcs_destination ::
            (walkEntries L rest).1, (walkEntries L rest).2)) := by
  refine ⟨?_, ?_, ?_, ?_⟩
  · rw [List.append_assoc, matchGsUri_scheme_append]
    have htw : (bkt ++ '/' :: pfx).takeWhile (fun c => c ≠ '\n') =
        bkt ++ '/' :: pfx := by
      apply List.takeWhile_eq_self_iff.mpr
      intro x hx
      apply decide_eq_true
      intro he
      subst he
      rcases List.mem_append.mp hx with hx | hx
      · exact hbn hx
      · rcases List.mem_cons.mp hx with hx | hx
        · exact absurd hx (by decide)
        · exact hpn hx
    rw [htw]
    exact splitFirstSlash_append bkt pfx hb
  · intro s h
    simp [matchGsUri, h]
  · intro L st h
    simp [walkEntry, h]
  · intro L st rest h
    simp [walkEntries, walkEntry, h]

/-- Witness for C4: `gs://out-bucket/run/0/` parses to the bucket
`out-bucket` and remainder `run/0/`. -/
theorem c4_witness :
    ('/' ∉ "out-bucket".data ∧ '\n' ∉ "out-bucket".data ∧
      '\n' ∉ "run/0/".data) ∧
    matchGsUri (gsScheme ++ "out-bucket".data ++ '/' :: "run/0/".data) =
      some ("out-bucket".data, "run/0/".data) :=
  ⟨⟨by decide, by decide, by decide⟩,
   (c4_uri_parse_wellformed_malformed "out-bucket".data "run/0/".data
     (by decide) (by decide) (by decide)).1⟩

/-- C9: a destination of the form `gs://` followed by a slash-free bucket
name (no `/` anywhere after the scheme marker) yields no match, and the
walk logs it as a parse error and skips it. -/
theorem c9_scheme_but_no_slash (rest : List Char) (h : '/' ∉ rest) :
    matchGsUri (gsScheme ++ rest) = none ∧
    ∀ L : String → String → List Blob,
      walkEntry L { output_gcs_destination := String.mk (gsScheme ++ rest) } =
        ([LogEvent.parseError (String.mk (gsScheme ++ rest))], []) := by
  have hm : matchGsUri (gsScheme ++ rest) = none := by
    rw [matchGsUri_scheme_append]
    apply splitFirstSlash_no_slash
    intro hmem
    exact h ((List.takeWhile_sublist _).mem hmem)
  refine ⟨hm, ?_⟩
  intro L
  have hg : gsMatch (String.mk (gsScheme ++ rest)) = none := by
    show (matchGsUri (gsScheme ++ rest)).map _ = none
    rw [hm]
    rfl
  simp [walkEntry, hg]

/-- Witness for C9: `gs://bucket` contains the scheme separator but no
further slash, so it yields no match. -/
theorem c9_witness :
    '/' ∉ "bucket".data ∧
    matchGsUri (gsScheme ++ "bucket".data) = none :=
  ⟨by decide, (c9_scheme_but_no_slash "bucket".data (by decide)).1⟩

/-- C10 counterexample: `gs://a/b\nc` is matched by the pattern (both
groups stop at the newline, and `re.match` does not require the match to
cover the whole string), yielding bucket `a` and remainder `b`, yet
`gs://` ++ `a` ++ `/` ++ `b` is not the original string: the split is not
a lossless round trip on the whole matched set. -/
theorem c10_counterexample :
    matchGsUri ("gs://a/b\nc".data) = some ("a".data, "b".data) ∧
    "gs://" ++ "a" ++ "/" ++ "b" ≠ "gs://a/b\nc" := by
  constructor
  · decide
  · decide

/-- C10 amended: for every string the pattern matches, the bucket group
contains no `/`; and for every matched string that contains no newline,
concatenating the scheme marker, the bucket, `/` and the remainder
reconstructs the original string exactly. -/
theorem c10_bucket_slash_free_roundtrip (s bkt pfx : List Char)
    (h : matchGsUri s = some (bkt, pfx)) :
    '/' ∉ bkt ∧ ('\n' ∉ s → gsScheme ++ bkt ++ '/' :: pfx = s) := by
  by_cases hp : gsScheme.isPrefixOf s
  · obtain ⟨t, ht⟩ : ∃ t, gsScheme ++ t = s := List.isPrefixOf_iff_prefix.mp hp
    subst ht
    rw [matchGsUri_scheme_append] at h
    obtain ⟨h1, h2⟩ := splitFirstSlash_sound _ bkt pfx h
    refine ⟨h1, ?_⟩
    intro hn
    have hnt : '\n' ∉ t := fun hh => hn (List.mem_append_right _ hh)
    have htw : t.takeWhile (fun c => c ≠ '\n') = t := by
      apply List.takeWhile_eq_self_iff.mpr
      intro x hx
      exact decide_eq_true (fun he => hnt (he ▸ hx))
    rw [htw] at h2
    simp [h2, List.append_assoc]
  · rw [matchGsUri, if_neg hp] at h
    cases h

/-- Witness for the amended C10: on `gs://out-bucket/run/0/` the bucket is
slash-free and the concatenation reconstructs the string. -/
theorem c10_witness :
    matchGsUri ("gs://out-bucket/run/0/".data) =
      some ("out-bucket".data, "run/0/".data) ∧
    '/' ∉ "out-bucket".data ∧
    ('\n' ∉ "gs://out-bucket/run/0/".data →
      gsScheme ++ "out-bucket".data ++ '/' :: "run/0/".data =
        "gs://out-bucket/run/0/".data) :=
  ⟨by decide,
   c10_bucket_slash_free_roundtrip "gs://out-bucket/run/0/".data
     "out-bucket".data "run/0/".data (by decide)⟩

/-- C1: when the terminal metadata state is anything other than SUCCEEDED
the run aborts with an error whose message carries the service-reported
failure message verbatim. -/
theorem c1_nonsucceeded_aborts_with_service_message (env : Env)
    (h : env.metadata.state ≠ BatchState.SUCCEEDED) :
    (batch_process_documents env).outcome =
      Except.error ("Batch Process Failed: " ++ env.metadata.state_message) := by
  simp [batch_process_documents, h]

/-- Concrete failed run used to witness C1. -/
def envC1 : Env :=
  { waitResult := WaitResult.completed,
    metadata :=
      { state := BatchState.FAILED,
        state_message := "quota exceeded",
        individual_process_statuses := [] },
    list_blobs := fun _ _ => [] }

/-- Witness for C1: a FAILED job with message `quota exceeded` aborts and
the message appears verbatim. -/
theorem c1_witness :
    envC1.metadata.state ≠ BatchState.SUCCEEDED ∧
    (batch_process_documents envC1).outcome =
      Except.error "Batch Process Failed: quota exceeded" :=
  ⟨by decide,
   by rw [c1_nonsucceeded_aborts_with_service_message envC1 (by decide)]; rfl⟩

/-- A log line produced for a listed object appears in the logs of the
whole inner loop. -/
theorem mem_processBlobs_logs (bs : List Blob) (b : Blob) (hb : b ∈ bs)
    (e : LogEvent) (he : e ∈ (processBlob b).1) : e ∈ (processBlobs bs).1 := by
  induction bs with
  | nil => cases hb
  | cons x xs ih =>
    rcases List.mem_cons.mp hb with h | h
    · subst h
      exact List.mem_append_left _ he
    · exact List.mem_append_right _ (ih h)

/-- A log line produced for one output entry appears in the logs of the
whole outer loop. -/
theorem mem_walkEntries_logs (L : String → String → List Blob)
    (l : List IndividualProcessStatus) (st : IndividualProcessStatus)
    (hst : st ∈ l) (e : LogEvent) (he : e ∈ (walkEntry L st).1) :
    e ∈ (walkEntries L l).1 := by
  induction l with
  | nil => cases hst
  | cons x xs ih =>
    rcases List.mem_cons.mp hst with h | h
    · subst h
      exact List.mem_append_left _ he
    · exact List.mem_append_right _ (ih h)

/-- On a succeeded run the logs are the wait logs followed by the walk
logs. -/
theorem batch_logs_succeeded (env : Env)
    (h : env.metadata.state = BatchState.SUCCEEDED) :
    (batch_process_documents env).logs =
      waitLogs env.waitResult ++
        (walkEntries env.list_blobs
          env.metadata.individual_process_statuses).1 := by
  simp [batch_process_documents, h]

/-- C3: on a succeeded run nothing aborts — the outcome is the `ok` of the
complete walk over every entry — and each anomaly is logged against the
single item it concerns: a malformed destination contributes its parse
error line, a non-JSON object its skip line, while the walk still covers
all entries and all listed objects. -/
theorem c3_anomalies_isolated (env : Env)
    (h : env.metadata.state = BatchState.SUCCEEDED) :
    (batch_process_documents env).outcome =
      Except.ok (walkEntries env.list_blobs
        env.metadata.individual_process_statuses).2 ∧
    (∀ st, st ∈ env.metadata.individual_process_statuses →
      gsMatch st.output_gcs_destination = none →
        LogEvent.parseError st.output_gcs_destination ∈
          (batch_process_documents env).logs) ∧
    (∀ st, st ∈ env.metadata.individual_process_statuses → ∀ bp,
      gsMatch st.output_gcs_destination = some bp →
        ∀ b, b ∈ env.list_blobs bp.1 bp.2 →
          b.content_type ≠ "application/json" →
            LogEvent.skipNonJson b.name b.content_type ∈
              (batch_process_documents env).logs) := by
  refine ⟨by simp [batch_process_documents, h], ?_, ?_⟩
  · intro st hst hnone
    rw [batch_logs_succeeded env h]
    apply List.mem_append_right
    apply mem_walkEntries_logs env.list_blobs _ st hst
    simp [walkEntry, hnone]
  · intro st hst bp hsome b hb hct
    rw [batch_logs_succeeded env h]
    apply List.mem_append_right
    apply mem_walkEntries_logs env.list_blobs _ st hst
    have hw : (walkEntry env.list_blobs st).1 =
        (processBlobs (env.list_blobs bp.1 bp.2)).1 := by
      simp [walkEntry, hsome]
    rw [hw]
    apply mem_processBlobs_logs _ b hb
    simp [processBlob, hct]

/-- Concrete succeeded run with one malformed entry, one good entry, a
non-JSON sidecar object and one JSON result, witnessing C3. -/
def envC3 : Env :=
  { waitResult := WaitResult.completed,
    metadata :=
      { state := BatchState.SUCCEEDED,
        state_message := "",
        individual_process_statuses :=
          [{ output_gcs_destination := "invalid-destination" },
           { output_gcs_destination := "gs://out-bucket/run/0/" }] },
    list_blobs := fun _ _ =>
      [{ name := "run/0/0.pdf.txt",
         content_type := "text/plain",
         content := Json.str "sidecar" },
       { name := "run/0/0.json",
         content_type := "application/json",
         content := Json.obj [("text", Json.str "hello")] }] }

/-- Witness for C3: the run above ends in `ok` with the one JSON text, and
both the parse-error line and the skip line are in the logs. -/
theorem c3_witness :
    envC3.metadata.state = BatchState.SUCCEEDED ∧
    (batch_process_documents envC3).outcome =
      Except.ok [("run/0/0.json", "hello")] ∧
    LogEvent.parseError "invalid-destination" ∈
      (batch_process_documents envC3).logs ∧
    LogEvent.skipNonJson "run/0/0.pdf.txt" "text/plain" ∈
      (batch_process_documents envC3).logs :=
  ⟨rfl,
   ((c3_anomalies_isolated envC3 rfl).1).trans (by rfl),
   (c3_anomalies_isolated envC3 rfl).2.1
     { output_gcs_destination := "invalid-destination" }
     (List.mem_cons_self _ _) (by decide),
   (c3_anomalies_isolated envC3 rfl).2.2
     { output_gcs_destination := "gs://out-bucket/run/0/" }
     (List.mem_cons_of_mem _ (List.mem_cons_self _ _))
     ("out-bucket", "run/0/") (by decide)
     { name := "run/0/0.pdf.txt",
       content_type := "text/plain",
       content := Json.str "sidecar" }
     (List.mem_cons_self _ _) (by decide)⟩

/-- C5: a listed object whose content type is not exactly
`application/json` only yields a skip log line: it is never fetched and
contributes no emitted text. -/
theorem c5_non_json_only_skipped (b : Blob)
    (h : b.content_type ≠ "application/json") :
    processBlob b = ([LogEvent.skipNonJson b.name b.content_type], []) ∧
    LogEvent.fetching b.name ∉ (processBlob b).1 ∧
    (processBlob b).2 = [] := by
  have he : processBlob b = ([LogEvent.skipNonJson b.name b.content_type], []) := by
    simp [processBlob, h]
  refine ⟨he, ?_, by rw [he]⟩
  rw [he]
  simp

/-- Witness for C5: a `text/plain` sidecar object is skipped, not fetched
and not emitted. -/
theorem c5_witness :
    processBlob
        { name := "run/0/0.pdf.txt",
          content_type := "text/plain",
          content := Json.str "sidecar" } =
      ([LogEvent.skipNonJson "run/0/0.pdf.txt" "text/plain"], []) ∧
    LogEvent.fetching "run/0/0.pdf.txt" ∉
      (processBlob
        { name := "run/0/0.pdf.txt",
          content_type := "text/plain",
          content := Json.str "sidecar" }).1 ∧
    (processBlob
      { name := "run/0/0.pdf.txt",
        content_type := "text/plain",
        content := Json.str "sidecar" }).2 = [] :=
  c5_non_json_only_skipped
    { name := "run/0/0.pdf.txt",
      content_type := "text/plain",
      content := Json.str "sidecar" }
    (by decide)

/-- C6: decoding a JSON object payload leniently succeeds also when the
payload holds fields unknown to the decoding schema — where the strict
decode would reject it — and the decoded document exposes the extracted
full text; in the walker, such an object is fetched and its text emitted. -/
theorem c6_lenient_decode_succeeds (fields : List (String × Json))
    (h : ∃ p ∈ fields, p.1 ∉ knownFields) :
    Document.from_json true (Json.obj fields) = some { text := getText fields } ∧
    Document.from_json false (Json.obj fields) = none ∧
    ∀ b : Blob, b.content_type = "application/json" →
      b.content = Json.obj fields →
        processBlob b = ([LogEvent.fetching b.name], [(b.name, getText fields)]) := by
  refine ⟨rfl, ?_, ?_⟩
  · obtain ⟨p, hp, hnk⟩ := h
    have hall : fields.all (fun q => knownFields.contains q.1) = false := by
      rw [List.all_eq_false]
      exact ⟨p, hp, by simpa using hnk⟩
    have hd : Document.from_json false (Json.obj fields) =
        if fields.all (fun q => knownFields.contains q.1) = true then
          some (mkDocument (Json.obj fields))
        else none := rfl
    rw [hd, hall]
    simp
  · intro b hct hcon
    simp [processBlob, hct, Document.from_json, mkDocument, hcon]

/-- Witness for C6: a payload with the unknown field `futureField` decodes
leniently to its text while the strict decode rejects it. -/
theorem c6_witness :
    (∃ p ∈ [("futureField", Json.num 1), ("text", Json.str "hello")],
      p.1 ∉ knownFields) ∧
    Document.from_json true
      (Json.obj [("futureField", Json.num 1), ("text", Json.str "hello")]) =
        some { text := "hello" } ∧
    Document.from_json false
      (Json.obj [("futureField", Json.num 1), ("text", Json.str "hello")]) =
        none :=
  ⟨⟨("futureField", Json.num 1), List.mem_cons_self _ _, by decide⟩,
   (c6_lenient_decode_succeeds _
     ⟨("futureField", Json.num 1), List.mem_cons_self _ _, by decide⟩).1,
   (c6_lenient_decode_succeeds _
     ⟨("futureField", Json.num 1), List.mem_cons_self _ _, by decide⟩).2.1⟩

/-- The texts one output entry contributes: nothing on a malformed
destination, else the (name, text) of each JSON-typed object in listing
order. -/
def entryTexts (listing : String → String → List Blob)
    (st : IndividualProcessStatus) : List (String × String) :=
  match gsMatch st.output_gcs_destination with
  | none => []
  | some bp =>
    ((listing bp.1 bp.2).filter
      (fun b => b.content_type = "application/json")).map
      (fun b => (b.name, (mkDocument b.content).text))

/-- The inner loop emits exactly the JSON-typed objects' texts in listing
order. -/
theorem processBlobs_snd (bs : List Blob) :
    (processBlobs bs).2 =
      (bs.filter (fun b => b.content_type = "application/json")).map
        (fun b => (b.name, (mkDocument b.content).text)) := by
  induction bs with
  | nil => rfl
  | cons b bs ih =>
    by_cases hct : b.content_type = "application/json"
    · simp [processBlobs, processBlob, hct, ih, Document.from_json]
    · simp [processBlobs, processBlob, hct, ih]

/-- One entry of the outer loop emits exactly its `entryTexts`. -/
theorem walkEntry_snd (L : String → String → List Blob)
    (st : IndividualProcessStatus) :
    (walkEntry L st).2 = entryTexts L st := by
  unfold walkEntry entryTexts
  cases gsMatch st.output_gcs_destination with
  | none => rfl
  | some bp => exact processBlobs_snd _

/-- The outer loop emits the concatenation of the per-entry texts in
metadata order. -/
theorem walkEntries_snd (L : String → String → List Blob)
    (l : List IndividualProcessStatus) :
    (walkEntries L l).2 = (l.map (entryTexts L)).flatten := by
  induction l with
  | nil => rfl
  | cons st rest ih => simp [walkEntries, walkEntry_snd, ih]

/-- C8: on a succeeded run the emitted (name, text) pairs are exactly the
concatenation, over the job's output entries in metadata order, of the
JSON-typed objects' texts in storage-listing order — a single finite pass
with no reordering of its own. -/
theorem c8_emitted_concat_in_order (env : Env)
    (h : env.metadata.state = BatchState.SUCCEEDED) :
    (batch_process_documents env).outcome =
      Except.ok ((env.metadata.individual_process_statuses.map
        (entryTexts env.list_blobs)).flatten) := by
  simp [batch_process_documents, h, walkEntries_snd]

/-- Concrete two-entry run witnessing C8. -/
def envC8 : Env :=
  { waitResult := WaitResult.completed,
    metadata :=
      { state := BatchState.SUCCEEDED,
        state_message := "",
        individual_process_statuses :=
          [{ output_gcs_destination := "gs://out-bucket/run/0/" },
           { output_gcs_destination := "gs://out-bucket/run/1/" }] },
    list_blobs := fun _ pfx =>
      if pfx = "run/0/" then
        [{ name := "run/0/0.json",
           content_type := "application/json",
           content := Json.obj [("text", Json.str "first")] },
         { name := "run/0/0.pdf.txt",
           content_type := "text/plain",
           content := Json.str "sidecar" }]
      else
        [{ name := "run/1/0.json",
           content_type := "application/json",
           content := Json.obj [("text", Json.str "second")] }] }

/-- Witness for C8: the run above emits the two texts in entry order, with
the sidecar filtered out. -/
theorem c8_witness :
    envC8.metadata.state = BatchState.SUCCEEDED ∧
    (batch_process_documents envC8).outcome =
      Except.ok [("run/0/0.json", "first"), ("run/1/0.json", "second")] :=
  ⟨rfl, (c8_emitted_concat_in_order envC8 rfl).trans (by rfl)⟩

/-- C2: a local wait timeout (`RetryError`) or transient server error
(`InternalServerError`) is logged and execution continues to the metadata
check: the run's outcome is the same as if the wait had completed, so a
local wait timeout is never by itself treated as job failure. -/
theorem c2_wait_error_logged_and_not_fatal (env : Env) (m : String)
    (h : env.waitResult = WaitResult.retryError m ∨
         env.waitResult = WaitResult.internalServerError m) :
    LogEvent.waitError m ∈ (batch_process_documents env).logs ∧
    (batch_process_documents env).outcome =
      (batch_process_documents
        { env with waitResult := WaitResult.completed }).outcome := by
  have hw : waitLogs env.waitResult = [LogEvent.waitError m] := by
    rcases h with h | h <;> rw [h] <;> rfl
  by_cases hs : env.metadata.state = BatchState.SUCCEEDED <;>
    simp [batch_process_documents, hs, hw]

/-- Concrete timed-out-but-succeeded run used to witness C2. -/
def envC2 : Env :=
  { waitResult := WaitResult.retryError "Deadline of 400.0s exceeded",
    metadata :=
      { state := BatchState.SUCCEEDED,
        state_message := "",
        individual_process_statuses :=
          [{ output_gcs_destination := "gs://out-bucket/run/0/" }] },
    list_blobs := fun _ _ =>
      [{ name := "run/0/0.json",
         content_type := "application/json",
         content := Json.obj [("text", Json.str "hello")] }] }

/-- Witness for C2: on a run whose wait raised `RetryError`, the error is
logged and the outcome equals the completed-wait outcome. -/
theorem c2_witness :
    LogEvent.waitError "Deadline of 400.0s exceeded" ∈
      (batch_process_documents envC2).logs ∧
    (batch_process_documents envC2).outcome =
      (batch_process_documents
        { envC2 with waitResult := WaitResult.completed }).outcome :=
  c2_wait_error_logged_and_not_fatal envC2 "Deadline of 400.0s exceeded"
    (Or.inl rfl)

/-- C7: whenever the terminal state is SUCCEEDED the run raises no fatal
error — also when the wait itself timed out or failed transiently earlier
in the same run: the wait-error path and the success path are not mutually
exclusive. -/
theorem c7_succeeded_never_fatal (env : Env)
    (hs : env.metadata.state = BatchState.SUCCEEDED) :
    (batch_process_documents env).outcome =
      Except.ok (walkEntries env.list_blobs
        env.metadata.individual_process_statuses).2 ∧
    ∀ e, (batch_process_documents env).outcome ≠ Except.error e := by
  constructor
  · simp [batch_process_documents, hs]
  · intro e
    simp [batch_process_documents, hs]

/-- Concrete run for the C7 witness: the wait timed out locally, yet the
job succeeded. -/
def envC7 : Env :=
  { waitResult := WaitResult.retryError "Deadline of 400.0s exceeded",
    metadata :=
      { state := BatchState.SUCCEEDED,
        state_message := "",
        individual_process_statuses :=
          [{ output_gcs_destination := "gs://out-bucket/run/0/" }] },
    list_blobs := fun _ _ =>
      [{ name := "run/0/0.json",
         content_type := "application/json",
         content := Json.obj [("text", Json.str "hello")] }] }

/-- Witness for C7: a run with a local wait timeout and a SUCCEEDED state
ends in `Except.ok`, not an error. -/
theorem c7_witness :
    (batch_process_documents envC7).outcome =
      Except.ok (walkEntries envC7.list_blobs
        envC7.metadata.individual_process_statuses).2 ∧
    ∀ e, (batch_process_documents envC7).outcome ≠ Except.error e :=
  c7_succeeded_never_fatal envC7 rfl

end FormParser
